import Mathlib

/-!
Verification of the daily-fantasy-sports aggregation pipeline of
`api-getactivities/main.go` (the commented-out `getStravaData` DFS handler)
against its natural-language specification.

Shallow-embedding conventions: Go `float64` score and odds values become
`ℚ`, with the IEEE outcome of a zero divisor modelled explicitly by
`GoFloat`; Go map reads become association-list lookups that return the
value type's zero value when the key is absent; `time.Time` values become
unix seconds (`Int`), the one-hour adjustment becoming `+ 3600`; the
stdlib RFC3339 parser, which is external to the repository, is a parameter
of type `String → Option Int`; a runtime panic (failed parse, slice index
out of range) becomes an `Except GoPanic` error, which aborts the whole
request before any response is written.  Structures keep the source field
names; fields that the handler copies verbatim from the lookup tables and
that no verified property touches (biographical and season-statistics
fields) are omitted.
-/

namespace StravaDFS

/-- Result of a Go `float64` division, keeping the IEEE non-finite
outcomes of a zero divisor distinct from every finite value. -/
inductive GoFloat where
  | fin (q : ℚ)
  | inf
  | ninf
  | nan
deriving DecidableEq, Repr

/-- Go float division `x / y` for finite operands: division by the
(positive) float zero value yields `+Inf`, `-Inf` or `NaN` according to
the sign of the numerator; it never faults. -/
def goDiv (x y : ℚ) : GoFloat :=
  if y = 0 then
    if 0 < x then .inf else if x < 0 then .ninf else .nan
  else .fin (x / y)

/-- Reading a Go map: `m[k]` yields the stored value, or the value type's
zero value (the `dflt` argument) when the key is absent; it never faults. -/
def goMapGet {α : Type} (m : List (String × α)) (k : String) (dflt : α) : α :=
  match m.find? (fun p => p.1 == k) with
  | some p => p.2
  | none => dflt

/-- Modelled from the spec: the helper `implContains` is called by the
handler but its definition is not among the provided source files.  The
spec describes the seen-UID collection as a set of previously-seen UIDs
with membership tests (skip if the UID is already present, otherwise add
it), so `implContains list x` is membership of `x` in `list`. -/
def implContains (l : List String) (x : String) : Bool :=
  l.contains x

/-- Substring test on the character lists backing two strings. -/
def strContainsAux (pat : List Char) : List Char → Bool
  | [] => pat.isEmpty
  | c :: cs => pat.isPrefixOf (c :: cs) || strContainsAux pat cs

/-- Go `strings.Contains s sub`. -/
def strContains (s sub : String) : Bool :=
  strContainsAux sub.data s.data

/-- The eight bucket counters of the score histogram, named after the
local counters `t_lessthan0` … `t_sixty_plus` of the source. -/
structure HistCounters where
  t_lessthan0 : Nat
  t_one_nine : Nat
  t_ten_nineteen : Nat
  t_twt_twtnine : Nat
  t_thr_thrnine : Nat
  t_for_fornine : Nat
  t_fft_fftnine : Nat
  t_sixty_plus : Nat
deriving DecidableEq, Repr

/-- All eight counters start at zero. -/
def histZero : HistCounters := ⟨0, 0, 0, 0, 0, 0, 0, 0⟩

/-- One iteration of the classification loop: the if/else-if chain of the
source, incrementing the counter of the first matching branch.  The Go
chain has no trailing else, so a value matching no branch (impossible
over the rationals) would leave the counters unchanged. -/
def histStep (c : HistCounters) (value : ℚ) : HistCounters :=
  if value ≤ 0 then { c with t_lessthan0 := c.t_lessthan0 + 1 }
  else if 0 ≤ value ∧ value < 10 then { c with t_one_nine := c.t_one_nine + 1 }
  else if 10 ≤ value ∧ value < 20 then { c with t_ten_nineteen := c.t_ten_nineteen + 1 }
  else if 20 ≤ value ∧ value < 30 then { c with t_twt_twtnine := c.t_twt_twtnine + 1 }
  else if 30 ≤ value ∧ value < 40 then { c with t_thr_thrnine := c.t_thr_thrnine + 1 }
  else if 40 ≤ value ∧ value < 50 then { c with t_for_fornine := c.t_for_fornine + 1 }
  else if 50 ≤ value ∧ value < 60 then { c with t_fft_fftnine := c.t_fft_fftnine + 1 }
  else if 60 ≤ value then { c with t_sixty_plus := c.t_sixty_plus + 1 }
  else c

/-- `tempPointsList`: the eight counters appended in source order. -/
def histList (c : HistCounters) : List Nat :=
  [c.t_lessthan0, c.t_one_nine, c.t_ten_nineteen, c.t_twt_twtnine,
   c.t_thr_thrnine, c.t_for_fornine, c.t_fft_fftnine, c.t_sixty_plus]

/-- The 8-bucket histogram of a raw simulated-score sample. -/
def histogramOf (values : List ℚ) : List Nat :=
  histList (values.foldl histStep histZero)

theorem histStep_sum (c : HistCounters) (v : ℚ) :
    (histList (histStep c v)).sum = (histList c).sum + 1 := by
  unfold histStep
  split_ifs with h1 h2 h3 h4 h5 h6 h7 h8
  · simp [histList]; omega
  · simp [histList]; omega
  · simp [histList]; omega
  · simp [histList]; omega
  · simp [histList]; omega
  · simp [histList]; omega
  · simp [histList]; omega
  · simp [histList]; omega
  · exfalso
    push_neg at h1 h2 h3 h4 h5 h6 h7 h8
    have h0 : (0 : ℚ) ≤ v := le_of_lt h1
    linarith [h2 h0, h3 (h2 h0), h4 (h3 (h2 h0)), h5 (h4 (h3 (h2 h0))),
      h6 (h5 (h4 (h3 (h2 h0)))), h7 (h6 (h5 (h4 (h3 (h2 h0)))))]

theorem foldl_histStep_sum (values : List ℚ) :
    ∀ c : HistCounters,
      (histList (values.foldl histStep c)).sum = (histList c).sum + values.length := by
  induction values with
  | nil => intro c; simp
  | cons v vs ih =>
    intro c
    simp only [List.foldl_cons, List.length_cons]
    rw [ih (histStep c v), histStep_sum]
    omega

/-- C4: for every score sample (any length, including empty) the
Histogram Builder produces an 8-element histogram whose bucket counts sum
to the length of the input sample, i.e. every sample value is counted in
exactly one bucket. -/
theorem histogram_conservation (values : List ℚ) :
    (histogramOf values).length = 8 ∧ (histogramOf values).sum = values.length := by
  constructor
  · simp [histogramOf, histList]
  · have h := foldl_histStep_sum values histZero
    simpa [histogramOf, histZero, histList] using h

theorem hist_single0 (v : ℚ) (hv : v ≤ 0) :
    histogramOf [v] = [1, 0, 0, 0, 0, 0, 0, 0] := by
  simp only [histogramOf, List.foldl_cons, List.foldl_nil]
  unfold histStep
  rw [if_pos hv]
  rfl

theorem hist_single1 (v : ℚ) (h0 : 0 < v) (h10 : v < 10) :
    histogramOf [v] = [0, 1, 0, 0, 0, 0, 0, 0] := by
  simp only [histogramOf, List.foldl_cons, List.foldl_nil]
  unfold histStep
  rw [if_neg (by linarith), if_pos ⟨le_of_lt h0, h10⟩]
  rfl

theorem hist_single2 (v : ℚ) (hlo : 10 ≤ v) (hhi : v < 20) :
    histogramOf [v] = [0, 0, 1, 0, 0, 0, 0, 0] := by
  simp only [histogramOf, List.foldl_cons, List.foldl_nil]
  unfold histStep
  rw [if_neg (by linarith), if_neg (fun h => absurd h.2 (by linarith)),
    if_pos ⟨hlo, hhi⟩]
  rfl

theorem hist_single3 (v : ℚ) (hlo : 20 ≤ v) (hhi : v < 30) :
    histogramOf [v] = [0, 0, 0, 1, 0, 0, 0, 0] := by
  simp only [histogramOf, List.foldl_cons, List.foldl_nil]
  unfold histStep
  rw [if_neg (by linarith), if_neg (fun h => absurd h.2 (by linarith)),
    if_neg (fun h => absurd h.2 (by linarith)), if_pos ⟨hlo, hhi⟩]
  rfl

theorem hist_single4 (v : ℚ) (hlo : 30 ≤ v) (hhi : v < 40) :
    histogramOf [v] = [0, 0, 0, 0, 1, 0, 0, 0] := by
  simp only [histogramOf, List.foldl_cons, List.foldl_nil]
  unfold histStep
  rw [if_neg (by linarith), if_neg (fun h => absurd h.2 (by linarith)),
    if_neg (fun h => absurd h.2 (by linarith)),
    if_neg (fun h => absurd h.2 (by linarith)), if_pos ⟨hlo, hhi⟩]
  rfl

theorem hist_single5 (v : ℚ) (hlo : 40 ≤ v) (hhi : v < 50) :
    histogramOf [v] = [0, 0, 0, 0, 0, 1, 0, 0] := by
  simp only [histogramOf, List.foldl_cons, List.foldl_nil]
  unfold histStep
  rw [if_neg (by linarith), if_neg (fun h => absurd h.2 (by linarith)),
    if_neg (fun h => absurd h.2 (by linarith)),
    if_neg (fun h => absurd h.2 (by linarith)),
    if_neg (fun h => absurd h.2 (by linarith)), if_pos ⟨hlo, hhi⟩]
  rfl

theorem hist_single6 (v : ℚ) (hlo : 50 ≤ v) (hhi : v < 60) :
    histogramOf [v] = [0, 0, 0, 0, 0, 0, 1, 0] := by
  simp only [histogramOf, List.foldl_cons, List.foldl_nil]
  unfold histStep
  rw [if_neg (by linarith), if_neg (fun h => absurd h.2 (by linarith)),
    if_neg (fun h => absurd h.2 (by linarith)),
    if_neg (fun h => absurd h.2 (by linarith)),
    if_neg (fun h => absurd h.2 (by linarith)),
    if_neg (fun h => absurd h.2 (by linarith)), if_pos ⟨hlo, hhi⟩]
  rfl

theorem hist_single7 (v : ℚ) (hv : 60 ≤ v) :
    histogramOf [v] = [0, 0, 0, 0, 0, 0, 0, 1] := by
  simp only [histogramOf, List.foldl_cons, List.foldl_nil]
  unfold histStep
  rw [if_neg (by linarith), if_neg (fun h => absurd h.2 (by linarith)),
    if_neg (fun h => absurd h.2 (by linarith)),
    if_neg (fun h => absurd h.2 (by linarith)),
    if_neg (fun h => absurd h.2 (by linarith)),
    if_neg (fun h => absurd h.2 (by linarith)),
    if_neg (fun h => absurd h.2 (by linarith)), if_pos hv]
  rfl

/-- C5: bucket assignment is deterministic and follows the fixed scheme:
values ≤ 0 go to bucket 0 (in particular exactly 0 goes to bucket 0, not
bucket 1), values in (0,10) go to bucket 1, values in [10k, 10k+10) for
k = 1..5 go to bucket k+1, values ≥ 60 (in particular exactly 60) go to
the last bucket; the sample [-5, 0, 9, 15, 61] yields the histogram
[2,1,1,0,0,0,0,1]. -/
theorem bucket_assignment :
    (∀ v : ℚ, v ≤ 0 → histogramOf [v] = [1, 0, 0, 0, 0, 0, 0, 0]) ∧
    histogramOf [0] = [1, 0, 0, 0, 0, 0, 0, 0] ∧
    (∀ v : ℚ, 0 < v → v < 10 → histogramOf [v] = [0, 1, 0, 0, 0, 0, 0, 0]) ∧
    (∀ k : Nat, 1 ≤ k → k ≤ 5 → ∀ v : ℚ, (10 * k : ℚ) ≤ v → v < 10 * (k + 1) →
      histogramOf [v] = (List.replicate 8 0).set (k + 1) 1) ∧
    (∀ v : ℚ, 60 ≤ v → histogramOf [v] = [0, 0, 0, 0, 0, 0, 0, 1]) ∧
    histogramOf [60] = [0, 0, 0, 0, 0, 0, 0, 1] ∧
    histogramOf [-5, 0, 9, 15, 61] = [2, 1, 1, 0, 0, 0, 0, 1] := by
  refine ⟨fun v hv => hist_single0 v hv, hist_single0 0 le_rfl,
    fun v h0 h10 => hist_single1 v h0 h10, ?_,
    fun v hv => hist_single7 v hv, hist_single7 60 le_rfl, ?_⟩
  · intro k hk1 hk5 v hlo hhi
    match k, hk1, hk5 with
    | 1, _, _ =>
      rw [hist_single2 v (by push_cast at hlo; linarith) (by push_cast at hhi; linarith)]
      rfl
    | 2, _, _ =>
      rw [hist_single3 v (by push_cast at hlo; linarith) (by push_cast at hhi; linarith)]
      rfl
    | 3, _, _ =>
      rw [hist_single4 v (by push_cast at hlo; linarith) (by push_cast at hhi; linarith)]
      rfl
    | 4, _, _ =>
      rw [hist_single5 v (by push_cast at hlo; linarith) (by push_cast at hhi; linarith)]
      rfl
    | 5, _, _ =>
      rw [hist_single6 v (by push_cast at hlo; linarith) (by push_cast at hhi; linarith)]
      rfl
  · show histList (histStep (histStep (histStep (histStep (histStep histZero (-5)) 0) 9) 15) 61) =
      [2, 1, 1, 0, 0, 0, 0, 1]
    unfold histStep histZero
    norm_num
    rfl

/-- Witness for C5: the scheme evaluated at the concrete values -3 and
15, discharging the hypotheses of `bucket_assignment`. -/
theorem bucket_assignment_w :
    histogramOf [(-3 : ℚ)] = [1, 0, 0, 0, 0, 0, 0, 0] ∧
    histogramOf [(15 : ℚ)] = (List.replicate 8 0).set 2 1 :=
  ⟨bucket_assignment.1 (-3) (by norm_num),
   bucket_assignment.2.2.2.1 1 (by norm_num) (by norm_num) 15 (by norm_num) (by norm_num)⟩

/-- A Go runtime panic reachable from the DFS handler: a failed
`time.Parse` (the handler calls `panic(err)`) or an out-of-range slice
index.  Either aborts the request before any response is written. -/
inductive GoPanic where
  | parseError
  | indexOutOfRange
deriving DecidableEq, Repr

/-- One (commence-time, implied-points) pair of a team's odds table; an
element of `oddsDat[team].Games`.  `Commence_time` is unix seconds
(`time.Unix(v, 0)` in the source). -/
structure OddsEntry where
  Commence_time : Int
  Points : ℚ
deriving DecidableEq, Repr

/-- Per-team value of the `ODDSteam` map: the ordered odds entries. -/
structure TeamOdds where
  Games : List OddsEntry
deriving DecidableEq, Repr

/-- Per-team value of the `TeamKeys` map (`t_mlb_games` averages); only
the field the handler reads is kept. -/
structure TeamPoints where
  Avg_points : ℚ
deriving DecidableEq, Repr

/-- Crosswalk row: provider id to canonical `PlayerID`; the other
service-specific id columns are never read by the aggregation and are
omitted. -/
structure ServiceKey where
  PlayerID : Int
deriving DecidableEq, Repr

/-- One game ledger entry of an MLB pitcher (DraftKings branch fields;
the FanDuel / Yahoo / Superdraft sample fields of the source are the
same shape and are not reached in the modelled
`contextService == "draftkings"` branch). -/
structure PitcherGame where
  GameDate : String
  Opponent : Int
  Opponent_name : String
  Game_Pk : Int
  Game_no : Int
  Opp_prob_phand : String
  Opp_prob_pitcher : Int
  S_deviation : ℚ
  Sim_cume_games : Int
  Venue : Int
  Draftkings_proj_points : ℚ
  Dk_points_list : List ℚ
  Draftkings_cume_points : ℚ
deriving DecidableEq, Repr

/-- Per-pitcher value of the simulation table (`pitchers` map); the
biographical and season-stat fields the handler copies verbatim are
omitted.  The Go zero value (missing map key) has `Team_id = ""` and an
empty game ledger. -/
structure MLBpitcher where
  Team_id : String
  Games : List PitcherGame
deriving DecidableEq, Repr

/-- One `PlayerGameAttributes` entry of a draftable. -/
structure GameAttr where
  Id : Int
  Value : String
deriving DecidableEq, Repr

/-- One roster-slot entry of the DraftKings draftables feed.  `StartTime`
is `s.Competition.StartTime`. -/
structure DKdraftable where
  PlayerDkId : Int
  DisplayName : String
  Position : String
  Salary : Int
  RosterSlotId : Int
  Status : String
  StartTime : String
  PlayerGameAttributes : List GameAttr
deriving DecidableEq, Repr

/-- The assembled pitcher projection record (`FinalPitcher`).  Field
defaults are the Go zero values of `var FinalPitcher Pitcher`; the
season-stat and biographical fields copied verbatim from the pitcher
table are omitted.  `Game_player_oddsfactor` is the one float the
handler computes by division, so it keeps the `GoFloat` shape. -/
structure Pitcher where
  ProbablePitcher : Bool := false
  LikelyPitcher : Bool := false
  Status : String := ""
  Date : String := ""
  Full_name : String := ""
  Mlb_id : Int := 0
  Positions : List String := []
  Salary : Int := 0
  RosterSlotId : Int := 0
  Lineup_selected : Int := 0
  Draftable_uid : String := ""
  Game_gameDate : String := ""
  ProjPoints : ℚ := 0
  ProjPointsList : List Nat := []
  Games_sim_cume_points : ℚ := 0
  Game_game_Pk : Int := 0
  Game_game_no : Int := 0
  Game_opp_prob_phand : String := ""
  Game_opp_prob_pitcher : Int := 0
  Game_opponent : Int := 0
  Game_opponent_name : String := ""
  Game_s_deviation : ℚ := 0
  Game_sim_cume_games : Int := 0
  Game_venue : Int := 0
  Game_team_oddspoints : ℚ := 0
  Game_player_oddsfactor : GoFloat := .fin 0
  Game_opponent_oddspoints : ℚ := 0
deriving DecidableEq, Repr

/-- `Draftable_uid` assembly:
`fmt.Sprint(providerId, "_", lookup, "_", position, "_", "_", idField, "_", salary)`.
`fmt.Sprint` inserts a space only between two operands neither of which
is a string, so the two adjacent "_" operands join into "__" and the
integers attach directly to the separators. -/
def mkUid (providerId lookup : Int) (position idField : String) (salary : Int) : String :=
  toString providerId ++ "_" ++ toString lookup ++ "_" ++ position ++ "_" ++ "_" ++
    idField ++ "_" ++ toString salary

/-- The odds-table scan of the pitchers branch: the
`for ix, odds_values := range oddsGames` loop whose body ends in an
unconditional `break`, so only the entry at index 0 is ever examined and
`ix` is 0 wherever it is used.  `gameTime` is the parsed game date
already shifted by one hour; `gameTime.After(commence)` is
`commence < gameTime`.  When the time condition matches, the opponent's
entry at the same index 0 is read with a Go slice index, which panics
when the opponent's odds list is empty. -/
def oddsScan (oddsGames oppGames : List OddsEntry) (avgPoints : ℚ)
    (gameTime : Int) (fp : Pitcher) : Except GoPanic Pitcher :=
  match oddsGames with
  | [] => .ok fp
  | e :: _ =>
    if e.Commence_time < gameTime then
      match oppGames.get? 0 with
      | some opp =>
          .ok { fp with Game_team_oddspoints := e.Points,
                        Game_player_oddsfactor := goDiv e.Points avgPoints,
                        Game_opponent_oddspoints := opp.Points }
      | none => .error .indexOutOfRange
    else .ok fp

/-- Fields recorded when the game-selection condition `gameTime.After(t)`
matches, in the `contextService == "draftkings"` branch.  The eight
histogram counters are zero up to this point (they are initialised just
before the game loop and first incremented here), so `ProjPointsList` is
the histogram of the selected game's DraftKings sample. -/
def recordGame (fp : Pitcher) (g : PitcherGame) : Pitcher :=
  { fp with
    Game_gameDate := g.GameDate,
    ProjPoints := g.Draftkings_proj_points,
    ProjPointsList := histogramOf g.Dk_points_list,
    Games_sim_cume_points := g.Draftkings_cume_points,
    Game_game_Pk := g.Game_Pk,
    Game_game_no := g.Game_no,
    Game_opp_prob_phand := g.Opp_prob_phand,
    Game_opp_prob_pitcher := g.Opp_prob_pitcher,
    Game_opponent := g.Opponent,
    Game_opponent_name := g.Opponent_name,
    Game_s_deviation := g.S_deviation,
    Game_sim_cume_games := g.Sim_cume_games,
    Game_venue := g.Venue }

/-- Read-only tables of one pitchers-path request, resolved before the
slot fold begins.  `parseTime` stands for the stdlib RFC3339 parser,
which is external to the repository: `none` is a parse error. -/
structure PitcherEnv where
  parseTime : String → Option Int
  Keys : List (String × ServiceKey)
  pitchers : List (String × MLBpitcher)
  oddsDat : List (String × TeamOdds)
  TeamKeys : List (String × TeamPoints)

/-- The per-athlete game loop of the pitchers branch: for each ledger
entry, parse its date (an unparseable date panics), add one hour, run
the odds scan, and stop at the first entry with `gameTime.After(t)`,
recording its fields. -/
def pitcherGameLoop (env : PitcherEnv) (tmpTeamId : String) (t : Int) (fp : Pitcher) :
    List PitcherGame → Except GoPanic Pitcher
  | [] => .ok fp
  | g :: rest =>
    match env.parseTime g.GameDate with
    | none => .error .parseError
    | some gt =>
      let gameTime := gt + 3600
      let oddsGames := (goMapGet env.oddsDat tmpTeamId ⟨[]⟩).Games
      let oppGames := (goMapGet env.oddsDat (toString g.Opponent) ⟨[]⟩).Games
      let avg := (goMapGet env.TeamKeys tmpTeamId ⟨0⟩).Avg_points
      match oddsScan oddsGames oppGames avg gameTime fp with
      | .error e => .error e
      | .ok fp1 =>
        if t < gameTime then .ok (recordGame fp1 g)
        else pitcherGameLoop env tmpTeamId t fp1 rest

/-- The `PlayerGameAttributes` loop of the pitchers branch: both flags
start false; an attribute with id 1 and value "true" sets
`ProbablePitcher`, else an attribute with id 137 and value "true" sets
`LikelyPitcher`; nothing ever resets either flag. -/
def pitcherFlags (attrs : List GameAttr) (p l : Bool) : Bool × Bool :=
  match attrs with
  | [] => (p, l)
  | a :: rest =>
    if a.Id = 1 then
      pitcherFlags rest (if a.Value = "true" then true else p) l
    else if a.Id = 137 then
      pitcherFlags rest p (if a.Value = "true" then true else l)
    else pitcherFlags rest p l

/-- Mutable accumulators of one pitchers pass: the seen-UID list, the
output collection (`FinalPitchers.Data`), and the `FinalPitcher`
work record, which the source declares outside the slot loop so
unreset fields persist from slot to slot. -/
structure PitcherState where
  FinalPitcherKeys : List String := []
  Data : List Pitcher := []
  FinalPitcher : Pitcher := {}
deriving DecidableEq, Repr

/-- The game-context reset block executed at the top of each pitcher
slot: flags recomputed from the attributes, status copied, and every
game/odds field set back to its zero default before the game loop. -/
def pitcherReset (fp : Pitcher) (s : DKdraftable) : Pitcher :=
  let pl := pitcherFlags s.PlayerGameAttributes false false
  { fp with
    ProbablePitcher := pl.1, LikelyPitcher := pl.2,
    Status := s.Status, Game_gameDate := "", ProjPoints := 0,
    Games_sim_cume_points := 0, Game_game_Pk := 0, Game_game_no := 0,
    Game_opp_prob_phand := "R", Game_opp_prob_pitcher := 0,
    Game_opponent := 0, Game_opponent_name := "", Game_s_deviation := 0,
    Game_sim_cume_games := 0, Game_venue := 0, Game_team_oddspoints := 0,
    Game_player_oddsfactor := .fin 0, Game_opponent_oddspoints := 0 }

/-- The identity/slot assembly executed after the game loop: date, name,
canonical id, lowered positions, the showdown slot handling (roster slot
573 appends "cpt" and multiplies the id by 1000, roster slot 574 appends
"util" and multiplies it by 10000), salary and slot fields, and the
composite UID built from the possibly-mutated `Mlb_id`.  `Date` is
`fmt.Sprint(t)`; the exact rendering of a `time.Time` is irrelevant to
every claim, so the unix seconds are rendered instead. -/
def pitcherAssemble (s : DKdraftable) (lookup : Int) (t : Int) (fp1 : Pitcher) : Pitcher :=
  let fp2 := { fp1 with
    Date := toString t,
    Full_name := s.DisplayName,
    Mlb_id := lookup,
    Positions := (s.Position.splitOn "/").map String.toLower }
  let fp3 :=
    if s.RosterSlotId = 573 then
      { fp2 with Positions := fp2.Positions ++ ["cpt"], Mlb_id := lookup * 1000 }
    else fp2
  let fp4 :=
    if s.RosterSlotId = 574 then
      { fp3 with Positions := fp3.Positions ++ ["util"], Mlb_id := lookup * 10000 }
    else fp3
  { fp4 with
    Salary := s.Salary, RosterSlotId := s.RosterSlotId, Lineup_selected := 0,
    Draftable_uid := mkUid s.PlayerDkId lookup s.Position (toString fp4.Mlb_id) s.Salary }

/-- The pitcher dedup gate: skip when the UID was already seen, skip when
the record is not a probable pitcher, otherwise record the UID and append
the record.  (`FinalPitcher` keeps the assembled record in each case, as
the work variable lives outside the loop.) -/
def pitcherGate (st : PitcherState) (fp5 : Pitcher) : PitcherState :=
  if implContains st.FinalPitcherKeys fp5.Draftable_uid then
    { st with FinalPitcher := fp5 }
  else if !fp5.ProbablePitcher then
    { st with FinalPitcher := fp5 }
  else
    ⟨st.FinalPitcherKeys ++ [fp5.Draftable_uid], st.Data ++ [fp5], fp5⟩

/-- Processing of one draftable in the
`contextPosition == "pitchers" && contextService == "draftkings"`
branch.  Slots whose position string contains neither "SP" nor "RP" are
skipped entirely.  For the others: resolve the canonical id (missing
crosswalk keys give the zero value 0), look up the pitcher (missing keys
give the zero-valued record), parse the slot's competition start time
(panicking on failure), reset the work record, run the game loop,
assemble the record and apply the gate. -/
def pitcherStep (env : PitcherEnv) (st : PitcherState) (s : DKdraftable) :
    Except GoPanic PitcherState :=
  if strContains s.Position "SP" || strContains s.Position "RP" then
    let lookup := (goMapGet env.Keys (toString s.PlayerDkId) ⟨0⟩).PlayerID
    let pit := goMapGet env.pitchers (toString lookup) ⟨"", []⟩
    match env.parseTime s.StartTime with
    | none => .error .parseError
    | some t =>
      match pitcherGameLoop env pit.Team_id t (pitcherReset st.FinalPitcher s) pit.Games with
      | .error e => .error e
      | .ok fp1 => .ok (pitcherGate st (pitcherAssemble s lookup t fp1))
  else .ok st

/-- The whole pitchers pass: the slot fold over the draftables listing.
A panic in any slot aborts the fold, and with it the request, before the
response (`c.IndentedJSON` of the accumulated data) is written. -/
def pitchersPass (env : PitcherEnv) (st : PitcherState) :
    List DKdraftable → Except GoPanic PitcherState
  | [] => .ok st
  | s :: rest =>
    match pitcherStep env st s with
    | .error e => .error e
    | .ok st1 => pitchersPass env st1 rest

/-- Per-player value of the NFL simulation table (`nfl_players` map);
only the fields the modelled DraftKings branches read into claim-relevant
record fields are kept (weather, jersey, week and the season-stat block
are copied verbatim and touched by no claim).  A missing map key yields
the Go zero value: empty strings, zero numbers, empty sample lists. -/
structure NFLplayerSim where
  Game_team_id : Int
  Game_team_name : String
  Dk_classic_points_mean : ℚ
  Dk_classic_points_list : List ℚ
  Dk_showdown_points_mean : ℚ
  Dk_showdown_points_list : List ℚ
  Game_opp_id : Int
  Game_opp_name : String
  Game_points_for : ℚ
  Game_points_against : ℚ
  Game_venue_id : Int
  Game_venue_name : String
deriving DecidableEq, Repr

/-- The Go zero value of `NFLplayerSim`. -/
def zeroNFLsim : NFLplayerSim := ⟨0, "", 0, [], 0, [], 0, "", 0, 0, 0, ""⟩

/-- The assembled NFL projection record (`FinalNFLPlayer`), restricted to
the fields the claims touch. -/
structure NflPlayer where
  Full_name : String
  Nfl_id : String
  Team_name : String
  Positions : List String
  Inlineup : Bool
  Status : String
  Salary : Int
  RosterSlotId : Int
  Lineup_selected : Int
  ProjPoints : ℚ
  ProjPointsList : List Nat
  Game_gameDate : String
  Game_opponent : Int
  Game_opponent_name : String
  Game_player_oddsfactor : ℚ
  Game_team_oddspoints : ℚ
  Game_opponent_oddspoints : ℚ
  Game_venue : Int
  Game_venue_name : String
  Draftable_uid : String
deriving DecidableEq, Repr

/-- `defaultNFLPlayer`: the default-value block the handler assigns to
`FinalNFLPlayer` at the top of each NFL slot iteration
(`Draftable_uid` is not in that block, so it keeps the Go zero value). -/
def defaultNFLPlayer : NflPlayer where
  Full_name := "None"
  Nfl_id := "0"
  Team_name := "None"
  Positions := ["None"]
  Inlineup := false
  Status := "None"
  Salary := 0
  RosterSlotId := 0
  Lineup_selected := 0
  ProjPoints := 0
  ProjPointsList := [0, 0, 0, 0, 0, 0, 0, 0]
  Game_gameDate := "None"
  Game_opponent := 0
  Game_opponent_name := "None"
  Game_player_oddsfactor := 0
  Game_team_oddspoints := 0
  Game_opponent_oddspoints := 0
  Game_venue := 0
  Game_venue_name := "None"
  Draftable_uid := ""

/-- The `PlayerGameAttributes` loop of the NFL branches: `Inlineup`
starts true and an attribute with id 100 and value "false" clears it. -/
def inlineupOf (attrs : List GameAttr) : Bool :=
  attrs.foldl
    (fun acc a => if a.Id = 100 then (if a.Value = "false" then false else acc) else acc)
    true

/-- Record assembly of the NFL DraftKings Classic branch, restricted to
the modelled fields: crosswalk lookup (missing keys give the 0
sentinel), simulation-table lookup (missing keys give the zero value),
position lowering with the derived "flex" tag, eligibility and status
rules, the classic-mean projection and histogram, the odds fields
(`Game_player_oddsfactor` is the constant 1.0 in this branch), and the
composite UID. -/
def buildClassic (Keys : List (String × ServiceKey))
    (nfl_players : List (String × NFLplayerSim)) (s : DKdraftable) : NflPlayer :=
  let nfl_lookup := (goMapGet Keys (toString s.PlayerDkId) ⟨0⟩).PlayerID
  let sim := goMapGet nfl_players (toString nfl_lookup) zeroNFLsim
  let positions0 := (s.Position.splitOn "/").map String.toLower
  let positions :=
    if implContains positions0 "rb" || implContains positions0 "wr" ||
        implContains positions0 "te" || implContains positions0 "pk" ||
        implContains positions0 "k" then
      positions0 ++ ["flex"]
    else positions0
  let nflId := toString nfl_lookup
  { defaultNFLPlayer with
    Full_name := s.DisplayName
    Nfl_id := nflId
    Team_name := sim.Game_team_name
    Positions := positions
    Inlineup := inlineupOf s.PlayerGameAttributes
    Status := if s.Position = "D" ∨ s.Position = "DEF" then "None" else s.Status
    Salary := s.Salary
    RosterSlotId := s.RosterSlotId
    Lineup_selected := 0
    ProjPoints := sim.Dk_classic_points_mean
    ProjPointsList := histogramOf sim.Dk_classic_points_list
    Game_gameDate := s.StartTime
    Game_opponent := sim.Game_opp_id
    Game_opponent_name := sim.Game_opp_name
    Game_player_oddsfactor := 1
    Game_team_oddspoints := sim.Game_points_for
    Game_opponent_oddspoints := sim.Game_points_against
    Game_venue := sim.Game_venue_id
    Game_venue_name := sim.Game_venue_name
    Draftable_uid := mkUid s.PlayerDkId nfl_lookup s.Position nflId s.Salary }

/-- Record assembly of the NFL DraftKings Showdown branch: as the classic
branch but with the showdown mean/sample fields, no base-position flex
tag, and the special-slot handling — roster slot 511 (captain) appends
"cpt" and suffixes "_511" to `Nfl_id`, roster slot 512 (flex) appends
"flex" and suffixes "_512"; the UID is built from the suffixed
`Nfl_id`. -/
def buildShowdown (Keys : List (String × ServiceKey))
    (nfl_players : List (String × NFLplayerSim)) (s : DKdraftable) : NflPlayer :=
  let nfl_lookup := (goMapGet Keys (toString s.PlayerDkId) ⟨0⟩).PlayerID
  let sim := goMapGet nfl_players (toString nfl_lookup) zeroNFLsim
  let positions0 := (s.Position.splitOn "/").map String.toLower
  let positions1 := if s.RosterSlotId = 511 then positions0 ++ ["cpt"] else positions0
  let positions2 := if s.RosterSlotId = 512 then positions1 ++ ["flex"] else positions1
  let nflId0 := toString nfl_lookup
  let nflId1 := if s.RosterSlotId = 511 then nflId0 ++ "_511" else nflId0
  let nflId2 := if s.RosterSlotId = 512 then nflId1 ++ "_512" else nflId1
  { defaultNFLPlayer with
    Full_name := s.DisplayName
    Nfl_id := nflId2
    Team_name := sim.Game_team_name
    Positions := positions2
    Inlineup := inlineupOf s.PlayerGameAttributes
    Status := if s.Position = "D" ∨ s.Position = "DEF" then "None" else s.Status
    Salary := s.Salary
    RosterSlotId := s.RosterSlotId
    Lineup_selected := 0
    ProjPoints := sim.Dk_showdown_points_mean
    ProjPointsList := histogramOf sim.Dk_showdown_points_list
    Game_gameDate := s.StartTime
    Game_opponent := sim.Game_opp_id
    Game_opponent_name := sim.Game_opp_name
    Game_player_oddsfactor := 1
    Game_team_oddspoints := sim.Game_points_for
    Game_opponent_oddspoints := sim.Game_points_against
    Game_venue := sim.Game_venue_id
    Game_venue_name := sim.Game_venue_name
    Draftable_uid := mkUid s.PlayerDkId nfl_lookup s.Position nflId2 s.Salary }

/-- Accumulators of one NFL pass: the seen-UID list and the output
collection.  (`FinalNFLPlayer` is fully re-assigned from
`defaultNFLPlayer` at the top of each iteration, so it carries no state
between slots.) -/
structure NflState where
  FinalNFLPlayerKeys : List String := []
  Data : List NflPlayer := []
deriving DecidableEq, Repr

/-- The dedup gate shared verbatim by every NFL branch: skip when the UID
was already seen, skip when the record is not in the lineup, otherwise
record the UID and append the record. -/
def nflGate (st : NflState) (r : NflPlayer) : NflState :=
  if implContains st.FinalNFLPlayerKeys r.Draftable_uid then st
  else if !r.Inlineup then st
  else ⟨st.FinalNFLPlayerKeys ++ [r.Draftable_uid], st.Data ++ [r]⟩

/-- The NFL DraftKings Classic pass: build then gate, slot by slot. -/
def classicPass (Keys : List (String × ServiceKey))
    (nfl_players : List (String × NFLplayerSim)) (st : NflState) :
    List DKdraftable → NflState
  | [] => st
  | s :: rest => classicPass Keys nfl_players (nflGate st (buildClassic Keys nfl_players s)) rest

/-- The NFL DraftKings Showdown pass: build then gate, slot by slot. -/
def showdownPass (Keys : List (String × ServiceKey))
    (nfl_players : List (String × NFLplayerSim)) (st : NflState) :
    List DKdraftable → NflState
  | [] => st
  | s :: rest => showdownPass Keys nfl_players (nflGate st (buildShowdown Keys nfl_players s)) rest

/-- The Go zero value of `Pitcher` (`var FinalPitcher Pitcher`). -/
def zeroPitcher : Pitcher := {}

/-- A concrete timestamp parser used only by witnesses and
counterexamples: a non-empty all-digit string is read as unix seconds,
anything else is a parse error. -/
def parseDigits (s : String) : Option Int :=
  if s.data ≠ [] ∧ s.data.all Char.isDigit then
    some (s.data.foldl (fun a c => 10 * a + ((c.toNat : Int) - 48)) 0)
  else none

/-- C1: for every team odds list with at least one entry the Odds
Enricher examines only the entry at index 0: the scan result never
depends on the entries after index 0, and if the first entry's commence
timestamp is strictly before the game timestamp plus one hour
(`gameTime` carries the one-hour shift) the team's projected points, the
player odds factor and the opponent's index-0 points are recorded, while
otherwise every field keeps its incoming (zero-default) value. -/
theorem odds_enricher_first_entry_only (e : OddsEntry) (rest rest' oppGames : List OddsEntry)
    (avg : ℚ) (gameTime : Int) (fp : Pitcher) :
    oddsScan (e :: rest) oppGames avg gameTime fp =
      oddsScan (e :: rest') oppGames avg gameTime fp ∧
    (∀ opp : OddsEntry, ∀ oppRest : List OddsEntry, oppGames = opp :: oppRest →
      e.Commence_time < gameTime →
      oddsScan (e :: rest) oppGames avg gameTime fp =
        .ok { fp with Game_team_oddspoints := e.Points,
                      Game_player_oddsfactor := goDiv e.Points avg,
                      Game_opponent_oddspoints := opp.Points }) ∧
    (¬ e.Commence_time < gameTime →
      oddsScan (e :: rest) oppGames avg gameTime fp = .ok fp) := by
  refine ⟨rfl, ?_, ?_⟩
  · intro opp oppRest hopp hlt
    subst hopp
    simp [oddsScan, hlt]
  · intro hge
    simp [oddsScan, hge]

/-- Witness for C1: the scan evaluated on a concrete one-entry odds
table whose first entry matches the time condition. -/
theorem odds_enricher_first_entry_only_w :
    oddsScan [⟨0, 4⟩] [⟨0, 7⟩] 2 10 zeroPitcher =
      .ok { zeroPitcher with Game_team_oddspoints := 4,
                             Game_player_oddsfactor := goDiv 4 2,
                             Game_opponent_oddspoints := 7 } :=
  (odds_enricher_first_entry_only ⟨0, 4⟩ [] [] [⟨0, 7⟩] 2 10 zeroPitcher).2.1 ⟨0, 7⟩ [] rfl
    (by decide)

/-- Counterexample to C7: with a zero team average and a matching first
odds entry, the factor division is not guarded: the recorded player odds
factor is the IEEE +Inf value, not the zero factor the claim states. -/
theorem odds_factor_zero_average_cex :
    (oddsScan [⟨0, 5⟩] [⟨0, 3⟩] 0 3600 zeroPitcher).toOption.map Pitcher.Game_player_oddsfactor =
      some GoFloat.inf ∧ GoFloat.inf ≠ GoFloat.fin 0 := by
  refine ⟨?_, by decide⟩
  rfl

/-- C7 amended: for every slot whose team average-points entry is zero,
the odds-factor division is unguarded: whenever the scan's time
condition matches (with a readable opponent entry), the scan still
completes without a fault, but the recorded factor is the non-finite
IEEE division result — +Inf, -Inf or NaN according to the sign of the
implied points — and in particular never any finite value, zero
included. -/
theorem odds_factor_zero_average (e : OddsEntry) (rest : List OddsEntry)
    (opp : OddsEntry) (oppRest : List OddsEntry) (gameTime : Int) (fp : Pitcher)
    (hmatch : e.Commence_time < gameTime) :
    oddsScan (e :: rest) (opp :: oppRest) 0 gameTime fp =
      .ok { fp with Game_team_oddspoints := e.Points,
                    Game_player_oddsfactor :=
                      if 0 < e.Points then .inf else if e.Points < 0 then .ninf else .nan,
                    Game_opponent_oddspoints := opp.Points } ∧
    (∀ q : ℚ,
      (if 0 < e.Points then GoFloat.inf else if e.Points < 0 then GoFloat.ninf
        else GoFloat.nan) ≠ .fin q) := by
  constructor
  · simp [oddsScan, hmatch, goDiv]
  · intro q
    split_ifs <;> simp

/-- Witness for C7's amended claim at concrete inputs. -/
theorem odds_factor_zero_average_w :
    oddsScan [⟨0, 5⟩] [⟨0, 3⟩] 0 3600 zeroPitcher =
      .ok { zeroPitcher with Game_team_oddspoints := 5,
                             Game_player_oddsfactor := GoFloat.inf,
                             Game_opponent_oddspoints := 3 } := by
  have h := (odds_factor_zero_average ⟨0, 5⟩ [] ⟨0, 3⟩ [] 3600 zeroPitcher (by decide)).1
  norm_num at h
  exact h

/-- The game-context fields written by the selection step — a projection
of the pitcher record used to state the Game Selector claims. -/
structure GameCtx where
  Game_gameDate : String
  ProjPoints : ℚ
  ProjPointsList : List Nat
  Games_sim_cume_points : ℚ
  Game_game_Pk : Int
  Game_game_no : Int
  Game_opp_prob_phand : String
  Game_opp_prob_pitcher : Int
  Game_opponent : Int
  Game_opponent_name : String
  Game_s_deviation : ℚ
  Game_sim_cume_games : Int
  Game_venue : Int
deriving DecidableEq, Repr

/-- The game-context projection of a pitcher record. -/
def gameCtx (fp : Pitcher) : GameCtx :=
  ⟨fp.Game_gameDate, fp.ProjPoints, fp.ProjPointsList, fp.Games_sim_cume_points,
   fp.Game_game_Pk, fp.Game_game_no, fp.Game_opp_prob_phand, fp.Game_opp_prob_pitcher,
   fp.Game_opponent, fp.Game_opponent_name, fp.Game_s_deviation, fp.Game_sim_cume_games,
   fp.Game_venue⟩

/-- The game context a ledger entry induces when it is selected. -/
def gameCtxOf (g : PitcherGame) : GameCtx :=
  ⟨g.GameDate, g.Draftkings_proj_points, histogramOf g.Dk_points_list,
   g.Draftkings_cume_points, g.Game_Pk, g.Game_no, g.Opp_prob_phand,
   g.Opp_prob_pitcher, g.Opponent, g.Opponent_name, g.S_deviation,
   g.Sim_cume_games, g.Venue⟩

/-- Spec-side selection predicate, following the spec's words: a ledger
entry qualifies when its game timestamp, after the fixed one-hour
adjustment, is strictly after the reference timestamp.  It is used only
to compare the loop with a first-match search over the full list. -/
def qualifies (parseTime : String → Option Int) (t : Int) (g : PitcherGame) : Bool :=
  match parseTime g.GameDate with
  | some gt => decide (t < gt + 3600)
  | none => false

theorem oddsScan_gameCtx (oddsGames oppGames : List OddsEntry) (avg : ℚ)
    (gameTime : Int) (fp fp1 : Pitcher)
    (h : oddsScan oddsGames oppGames avg gameTime fp = .ok fp1) :
    gameCtx fp1 = gameCtx fp := by
  cases oddsGames with
  | nil => simp only [oddsScan] at h; cases h; rfl
  | cons e es =>
    simp only [oddsScan] at h
    split at h
    · cases hopp : oppGames.get? 0 with
      | some opp => rw [hopp] at h; cases h; rfl
      | none => rw [hopp] at h; cases h
    · cases h; rfl

theorem gameCtx_recordGame (fp : Pitcher) (g : PitcherGame) :
    gameCtx (recordGame fp g) = gameCtxOf g := rfl

theorem pitcherGameLoop_gameCtx (env : PitcherEnv) (tmpTeamId : String) (t : Int) :
    ∀ (games : List PitcherGame) (fp fp1 : Pitcher),
      pitcherGameLoop env tmpTeamId t fp games = .ok fp1 →
      gameCtx fp1 =
        (match games.find? (qualifies env.parseTime t) with
         | some g => gameCtxOf g
         | none => gameCtx fp) := by
  intro games
  induction games with
  | nil =>
    intro fp fp1 h
    simp only [pitcherGameLoop] at h
    cases h
    rfl
  | cons g gs ih =>
    intro fp fp1 h
    simp only [pitcherGameLoop] at h
    cases hp : env.parseTime g.GameDate with
    | none => rw [hp] at h; cases h
    | some gt =>
      rw [hp] at h
      simp only [] at h
      cases hscan : oddsScan (goMapGet env.oddsDat tmpTeamId ⟨[]⟩).Games
          (goMapGet env.oddsDat (toString g.Opponent) ⟨[]⟩).Games
          (goMapGet env.TeamKeys tmpTeamId ⟨0⟩).Avg_points (gt + 3600) fp with
      | error e => rw [hscan] at h; cases h
      | ok fp2 =>
        rw [hscan] at h
        simp only [] at h
        have hctx2 : gameCtx fp2 = gameCtx fp := oddsScan_gameCtx _ _ _ _ _ _ hscan
        by_cases hq : t < gt + 3600
        · rw [if_pos hq] at h
          cases h
          have hfind : List.find? (qualifies env.parseTime t) (g :: gs) = some g := by
            simp [List.find?, qualifies, hp, hq]
          rw [hfind, gameCtx_recordGame]
        · rw [if_neg hq] at h
          have hfind : List.find? (qualifies env.parseTime t) (g :: gs) =
              List.find? (qualifies env.parseTime t) gs := by
            simp [List.find?, qualifies, hp, hq]
          rw [hfind]
          have := ih fp2 fp1 h
          rw [this]
          cases List.find? (qualifies env.parseTime t) gs <;> simp [hctx2]

theorem pitcherGameLoop_stops_at_match (env : PitcherEnv) (tmpTeamId : String) (t : Int)
    (g : PitcherGame) (gt : Int) (hp : env.parseTime g.GameDate = some gt)
    (hq : t < gt + 3600) :
    ∀ (pre rest rest' : List PitcherGame) (fp : Pitcher),
      pitcherGameLoop env tmpTeamId t fp (pre ++ g :: rest) =
        pitcherGameLoop env tmpTeamId t fp (pre ++ g :: rest') := by
  intro pre
  induction pre with
  | nil =>
    intro rest rest' fp
    simp only [List.nil_append, pitcherGameLoop, hp]
    cases oddsScan (goMapGet env.oddsDat tmpTeamId ⟨[]⟩).Games
        (goMapGet env.oddsDat (toString g.Opponent) ⟨[]⟩).Games
        (goMapGet env.TeamKeys tmpTeamId ⟨0⟩).Avg_points (gt + 3600) fp with
    | error e => rfl
    | ok fp2 => simp [if_pos hq]
  | cons p ps ih =>
    intro rest rest' fp
    simp only [List.cons_append, pitcherGameLoop]
    cases env.parseTime p.GameDate with
    | none => rfl
    | some pt =>
      simp only []
      cases oddsScan (goMapGet env.oddsDat tmpTeamId ⟨[]⟩).Games
          (goMapGet env.oddsDat (toString p.Opponent) ⟨[]⟩).Games
          (goMapGet env.TeamKeys tmpTeamId ⟨0⟩).Avg_points (pt + 3600) fp with
      | error e => rfl
      | ok fp2 =>
        by_cases hq2 : t < pt + 3600
        · simp [if_pos hq2]
        · simp only [if_neg hq2]
          exact ih rest rest' fp2

/-- C2: the Game Selector scans the ledger in order and selects exactly
the first entry whose game timestamp plus the fixed one-hour adjustment
is strictly after the reference timestamp `t`: whenever the loop
completes normally its game-context fields are those of the first
qualifying entry — the same entry a first-match search over the full
list returns — and they keep their incoming (zero-default) values when
no entry qualifies; moreover the loop stops at the first match, so
entries after it are never considered: the outcome is identical for
every continuation of the ledger beyond the first qualifying entry. -/
theorem game_selector_first_future (env : PitcherEnv) (tmpTeamId : String) (t : Int) :
    (∀ (games : List PitcherGame) (fp fp1 : Pitcher),
      pitcherGameLoop env tmpTeamId t fp games = .ok fp1 →
      gameCtx fp1 =
        (match games.find? (qualifies env.parseTime t) with
         | some g => gameCtxOf g
         | none => gameCtx fp)) ∧
    (∀ (g : PitcherGame) (gt : Int), env.parseTime g.GameDate = some gt → t < gt + 3600 →
      ∀ (pre rest rest' : List PitcherGame) (fp : Pitcher),
        pitcherGameLoop env tmpTeamId t fp (pre ++ g :: rest) =
          pitcherGameLoop env tmpTeamId t fp (pre ++ g :: rest')) :=
  ⟨pitcherGameLoop_gameCtx env tmpTeamId t,
   fun g gt hp hq => pitcherGameLoop_stops_at_match env tmpTeamId t g gt hp hq⟩

/-- A fixed environment for the Game Selector witness: no odds and no
team averages, so the per-entry odds scans are no-ops. -/
def envSelW : PitcherEnv := ⟨parseDigits, [], [], [], []⟩

/-- First ledger entry of the witness: game date 100, so 100 + 3600 is
not strictly after the reference timestamp 5000. -/
def gSel1 : PitcherGame := ⟨"100", 1, "opp1", 11, 1, "R", 0, 0, 3, 21, 7, [12], 30⟩

/-- Second ledger entry of the witness: game date 9000 qualifies. -/
def gSel2 : PitcherGame := ⟨"9000", 2, "opp2", 12, 2, "L", 0, 0, 4, 22, 8, [55], 40⟩

/-- Witness for C2: on a two-entry ledger whose second entry is the
first qualifying one, the loop's game context is that entry's. -/
theorem game_selector_first_future_w :
    gameCtx ((pitcherGameLoop envSelW "A" 5000 zeroPitcher [gSel1, gSel2]).toOption.getD
      zeroPitcher) = gameCtxOf gSel2 := by
  have h := (game_selector_first_future envSelW "A" 5000).1 [gSel1, gSel2] zeroPitcher
    ((pitcherGameLoop envSelW "A" 5000 zeroPitcher [gSel1, gSel2]).toOption.getD zeroPitcher)
    rfl
  rw [show List.find? (qualifies envSelW.parseTime 5000) [gSel1, gSel2] = some gSel2
    from by decide] at h
  exact h

/-- The Go zero value of `PitcherState` (all accumulators empty). -/
def st0 : PitcherState := {}

theorem pitcherFlags_fst (attrs : List GameAttr) :
    ∀ p l : Bool, (pitcherFlags attrs p l).1 =
      (p || attrs.any (fun a => a.Id == 1 && a.Value == "true")) := by
  induction attrs with
  | nil => intro p l; simp [pitcherFlags]
  | cons a rest ih =>
    intro p l
    by_cases h1 : a.Id = 1
    · by_cases hv : a.Value = "true"
      · simp [pitcherFlags, h1, hv, ih]
      · simp only [pitcherFlags, if_pos h1, if_neg hv, ih, List.any_cons]
        rw [beq_eq_false_iff_ne.mpr hv]
        simp
    · by_cases h137 : a.Id = 137
      · simp only [pitcherFlags, if_neg h1, if_pos h137, ih, List.any_cons]
        rw [beq_eq_false_iff_ne.mpr h1]
        simp
      · simp only [pitcherFlags, if_neg h1, if_neg h137, ih, List.any_cons]
        rw [beq_eq_false_iff_ne.mpr h1]
        simp

theorem oddsScan_probable (oddsGames oppGames : List OddsEntry) (avg : ℚ)
    (gameTime : Int) (fp fp1 : Pitcher)
    (h : oddsScan oddsGames oppGames avg gameTime fp = .ok fp1) :
    fp1.ProbablePitcher = fp.ProbablePitcher := by
  cases oddsGames with
  | nil => simp only [oddsScan] at h; cases h; rfl
  | cons e es =>
    simp only [oddsScan] at h
    split at h
    · cases hopp : oppGames.get? 0 with
      | some opp => rw [hopp] at h; cases h; rfl
      | none => rw [hopp] at h; cases h
    · cases h; rfl

theorem pitcherGameLoop_probable (env : PitcherEnv) (tm : String) (t : Int) :
    ∀ (games : List PitcherGame) (fp fp1 : Pitcher),
      pitcherGameLoop env tm t fp games = .ok fp1 →
      fp1.ProbablePitcher = fp.ProbablePitcher := by
  intro games
  induction games with
  | nil => intro fp fp1 h; simp only [pitcherGameLoop] at h; cases h; rfl
  | cons g gs ih =>
    intro fp fp1 h
    simp only [pitcherGameLoop] at h
    cases hp : env.parseTime g.GameDate with
    | none => rw [hp] at h; cases h
    | some gt =>
      rw [hp] at h
      simp only [] at h
      cases hscan : oddsScan (goMapGet env.oddsDat tm ⟨[]⟩).Games
          (goMapGet env.oddsDat (toString g.Opponent) ⟨[]⟩).Games
          (goMapGet env.TeamKeys tm ⟨0⟩).Avg_points (gt + 3600) fp with
      | error e => rw [hscan] at h; cases h
      | ok fp2 =>
        rw [hscan] at h
        simp only [] at h
        have h2 := oddsScan_probable _ _ _ _ _ _ hscan
        by_cases hq : t < gt + 3600
        · rw [if_pos hq] at h
          cases h
          exact h2
        · rw [if_neg hq] at h
          rw [ih fp2 fp1 h]
          exact h2

theorem pitcherAssemble_probable (s : DKdraftable) (lookup t : Int) (fp : Pitcher) :
    (pitcherAssemble s lookup t fp).ProbablePitcher = fp.ProbablePitcher := by
  unfold pitcherAssemble
  split_ifs <;> rfl

/-- Every step of the pitchers pass either skips the slot, panics, or
gates the record assembled from the game-loop result, whose
probable-pitcher flag is exactly the one the attribute loop computed. -/
theorem pitcherStep_shape (env : PitcherEnv) (st : PitcherState) (s : DKdraftable) :
    pitcherStep env st s = .ok st ∨
    (∃ e, pitcherStep env st s = .error e) ∨
    (∃ lookup t fp1,
      pitcherStep env st s = .ok (pitcherGate st (pitcherAssemble s lookup t fp1)) ∧
      fp1.ProbablePitcher = (pitcherFlags s.PlayerGameAttributes false false).1) := by
  unfold pitcherStep
  by_cases hsp : (strContains s.Position "SP" || strContains s.Position "RP") = true
  · rw [if_pos hsp]
    cases hpt : env.parseTime s.StartTime with
    | none => exact .inr (.inl ⟨.parseError, rfl⟩)
    | some t =>
      cases hloop : pitcherGameLoop env
          (goMapGet env.pitchers
            (toString (goMapGet env.Keys (toString s.PlayerDkId) ⟨0⟩).PlayerID)
            ⟨"", []⟩).Team_id t (pitcherReset st.FinalPitcher s)
          (goMapGet env.pitchers
            (toString (goMapGet env.Keys (toString s.PlayerDkId) ⟨0⟩).PlayerID)
            ⟨"", []⟩).Games with
      | error e => exact .inr (.inl ⟨e, by simp [hloop]⟩)
      | ok fp1 =>
        refine .inr (.inr ⟨(goMapGet env.Keys (toString s.PlayerDkId) ⟨0⟩).PlayerID,
          t, fp1, by simp [hloop], ?_⟩)
        have h1 := pitcherGameLoop_probable env _ t _ _ _ hloop
        rw [h1]
        rfl
  · rw [if_neg hsp]
    exact .inl rfl

theorem pitcherGate_data_of_not_probable (st : PitcherState) (fp5 : Pitcher)
    (hp : fp5.ProbablePitcher = false) :
    (pitcherGate st fp5).Data = st.Data := by
  unfold pitcherGate
  split_ifs with h1 h2
  · rfl
  · rfl
  · exfalso
    rw [hp] at h2
    exact h2 rfl

theorem pitcherStep_data_mem (env : PitcherEnv) (st st' : PitcherState) (s : DKdraftable)
    (h : pitcherStep env st s = .ok st') :
    ∀ r ∈ st'.Data, r ∈ st.Data ∨ r.ProbablePitcher = true := by
  rcases pitcherStep_shape env st s with hs | ⟨e, hs⟩ | ⟨lookup, t, fp1, hs, hprob⟩
  · rw [hs] at h
    cases h
    intro r hr
    exact .inl hr
  · rw [hs] at h
    cases h
  · rw [hs] at h
    cases h
    intro r hr
    unfold pitcherGate at hr
    split at hr
    · exact .inl hr
    · split at hr
      · exact .inl hr
      next hnp =>
        simp only [List.mem_append, List.mem_singleton] at hr
        cases hr with
        | inl h1 => exact .inl h1
        | inr h2 =>
          subst h2
          right
          rw [pitcherAssemble_probable] at hnp ⊢
          simp only [Bool.not_eq_true'] at hnp
          simpa using hnp

theorem pitchersPass_probable_inv (env : PitcherEnv) :
    ∀ (slots : List DKdraftable) (st st' : PitcherState),
      (∀ r ∈ st.Data, r.ProbablePitcher = true) →
      pitchersPass env st slots = .ok st' →
      ∀ r ∈ st'.Data, r.ProbablePitcher = true := by
  intro slots
  induction slots with
  | nil =>
    intro st st' hinv h
    simp only [pitchersPass] at h
    cases h
    exact hinv
  | cons s rest ih =>
    intro st st' hinv h
    simp only [pitchersPass] at h
    cases hstep : pitcherStep env st s with
    | error e => rw [hstep] at h; cases h
    | ok st1 =>
      rw [hstep] at h
      refine ih st1 st' ?_ h
      intro r hr
      rcases pitcherStep_data_mem env st st1 s hstep r hr with h1 | h2
      · exact hinv r h1
      · exact h2

/-- C10: in the MLB pitchers path the emission gate is the
probable-pitcher flag, not the general lineup-eligibility flag: (a)
starting from any state whose output holds only probable pitchers — in
particular the initial empty state — every record the pass emits has
`ProbablePitcher = true`; (b) the flag is set exactly when a game
attribute with id 1 and value "true" is present on the slot; (c) a slot
without such an attribute never appends a record to the output,
regardless of its lineup status. -/
theorem pitcher_probable_gate :
    (∀ (env : PitcherEnv) (slots : List DKdraftable) (st st' : PitcherState),
      (∀ r ∈ st.Data, r.ProbablePitcher = true) →
      pitchersPass env st slots = .ok st' →
      ∀ r ∈ st'.Data, r.ProbablePitcher = true) ∧
    (∀ attrs : List GameAttr,
      ((pitcherFlags attrs false false).1 = true ↔
        ∃ a ∈ attrs, a.Id = 1 ∧ a.Value = "true")) ∧
    (∀ (env : PitcherEnv) (st st' : PitcherState) (s : DKdraftable),
      (∀ a ∈ s.PlayerGameAttributes, ¬ (a.Id = 1 ∧ a.Value = "true")) →
      pitcherStep env st s = .ok st' →
      st'.Data = st.Data) := by
  refine ⟨pitchersPass_probable_inv, ?_, ?_⟩
  · intro attrs
    rw [pitcherFlags_fst]
    simp [List.any_eq_true, beq_iff_eq]
  · intro env st st' s hattr h
    have hflag : (pitcherFlags s.PlayerGameAttributes false false).1 = false := by
      rw [pitcherFlags_fst]
      simp only [Bool.false_or, List.any_eq_false]
      intro a ha
      have := hattr a ha
      simp only [Bool.and_eq_true, beq_iff_eq]
      intro hcon
      exact this ⟨hcon.1, hcon.2⟩
    rcases pitcherStep_shape env st s with hs | ⟨e, hs⟩ | ⟨lookup, t, fp1, hs, hprob⟩
    · rw [hs] at h
      cases h
      rfl
    · rw [hs] at h
      cases h
    · rw [hs] at h
      cases h
      apply pitcherGate_data_of_not_probable
      rw [pitcherAssemble_probable, hprob, hflag]

/-- A fixed environment with empty tables for the pitcher-gate witness. -/
def env10 : PitcherEnv := ⟨parseDigits, [], [], [], []⟩

/-- Witness slot for C10: an SP slot whose only attribute is a lineup
attribute (id 100), with no probable-pitcher attribute. -/
def slot10 : DKdraftable := ⟨10, "P", "SP", 100, 0, "ok", "5000", [⟨100, "false"⟩]⟩

/-- Witness for C10: the SP slot without a probable-pitcher attribute
appends nothing. -/
theorem pitcher_probable_gate_w :
    ((pitcherStep env10 st0 slot10).toOption.getD st0).Data = [] := by
  have h := pitcher_probable_gate.2.2 env10 st0
    ((pitcherStep env10 st0 slot10).toOption.getD st0) slot10 (by decide) rfl
  simpa using h

theorem pitchersPass_abort (env : PitcherEnv) (s : DKdraftable)
    (hstep : ∀ st1 : PitcherState, ∃ e, pitcherStep env st1 s = .error e) :
    ∀ (pre post : List DKdraftable) (st : PitcherState),
      ∃ e, pitchersPass env st (pre ++ s :: post) = .error e := by
  intro pre
  induction pre with
  | nil =>
    intro post st
    obtain ⟨e, he⟩ := hstep st
    refine ⟨e, ?_⟩
    simp only [List.nil_append, pitchersPass]
    rw [he]
  | cons p ps ih =>
    intro post st
    simp only [List.cons_append, pitchersPass]
    cases hp : pitcherStep env st p with
    | error e => exact ⟨e, rfl⟩
    | ok st1 => exact ih post st1

theorem pitcherGameLoop_abort (env : PitcherEnv) (tm : String) (t : Int)
    (g : PitcherGame) (hbad : env.parseTime g.GameDate = none) :
    ∀ (gs1 : List PitcherGame),
      (∀ g' ∈ gs1, ∃ x, env.parseTime g'.GameDate = some x ∧ ¬ t < x + 3600) →
      ∀ (gs2 : List PitcherGame) (fp : Pitcher),
        ∃ e, pitcherGameLoop env tm t fp (gs1 ++ g :: gs2) = .error e := by
  intro gs1
  induction gs1 with
  | nil =>
    intro _ gs2 fp
    refine ⟨.parseError, ?_⟩
    simp only [List.nil_append, pitcherGameLoop]
    rw [hbad]
  | cons g' gs ih =>
    intro hall gs2 fp
    obtain ⟨x, hx, hnq⟩ := hall g' (List.mem_cons_self _ _)
    simp only [List.cons_append, pitcherGameLoop]
    rw [hx]
    simp only []
    cases hscan : oddsScan (goMapGet env.oddsDat tm ⟨[]⟩).Games
        (goMapGet env.oddsDat (toString g'.Opponent) ⟨[]⟩).Games
        (goMapGet env.TeamKeys tm ⟨0⟩).Avg_points (x + 3600) fp with
    | error e => exact ⟨e, rfl⟩
    | ok fp2 =>
      simp only []
      rw [if_neg hnq]
      exact ih (fun g'' hm => hall g'' (List.mem_cons_of_mem _ hm)) gs2 fp2

/-- C9 amended: a malformed timestamp is fatal to the whole request — the
handler panics, so the response for every slot is lost — exactly when the
timestamp is actually examined: (a) an SP/RP slot whose competition
start time fails to parse aborts the whole pass wherever the slot sits
in the listing; (b) so does an unparseable game date on a ledger entry
that the game loop reaches, i.e. one preceded only by entries that parse
and do not qualify.  (Ledger entries after the first qualifying entry
are never parsed — see the counterexample — so a malformed date there
does not abort the request.) -/
theorem malformed_timestamp_aborts (env : PitcherEnv) (s : DKdraftable)
    (pre post : List DKdraftable) (st : PitcherState)
    (hsp : (strContains s.Position "SP" || strContains s.Position "RP") = true) :
    (env.parseTime s.StartTime = none →
      ∃ e, pitchersPass env st (pre ++ s :: post) = .error e) ∧
    (∀ t : Int, env.parseTime s.StartTime = some t →
      ∀ (gs1 : List PitcherGame) (g : PitcherGame) (gs2 : List PitcherGame),
        (goMapGet env.pitchers
          (toString (goMapGet env.Keys (toString s.PlayerDkId) ⟨0⟩).PlayerID)
          ⟨"", []⟩).Games = gs1 ++ g :: gs2 →
        (∀ g' ∈ gs1, ∃ x, env.parseTime g'.GameDate = some x ∧ ¬ t < x + 3600) →
        env.parseTime g.GameDate = none →
        ∃ e, pitchersPass env st (pre ++ s :: post) = .error e) := by
  constructor
  · intro hnone
    apply pitchersPass_abort env s
    intro st1
    refine ⟨.parseError, ?_⟩
    unfold pitcherStep
    rw [if_pos hsp, hnone]
  · intro t hsome gs1 g gs2 hgames hall hbad
    apply pitchersPass_abort env s
    intro st1
    obtain ⟨e, he⟩ := pitcherGameLoop_abort env
      (goMapGet env.pitchers
        (toString (goMapGet env.Keys (toString s.PlayerDkId) ⟨0⟩).PlayerID)
        ⟨"", []⟩).Team_id t g hbad gs1 hall gs2 (pitcherReset st1.FinalPitcher s)
    refine ⟨e, ?_⟩
    unfold pitcherStep
    rw [if_pos hsp, hsome]
    simp only []
    rw [hgames, he]

/-- The environment of the C9 counterexample and witness: one crosswalk
row, one pitcher whose ledger holds a qualifying first entry followed by
an entry with an unparseable game date. -/
def env9 : PitcherEnv :=
  ⟨parseDigits, [("10", ⟨7⟩)],
   [("7", ⟨"A", [⟨"9000", 2, "opp", 1, 1, "R", 0, 0, 1, 3, 5, [], 6⟩,
                 ⟨"bad-date", 2, "opp", 1, 2, "R", 0, 0, 1, 3, 5, [], 6⟩]⟩)],
   [], []⟩

/-- The slot of the C9 counterexample: an SP slot with a parseable start
time and a probable-pitcher attribute. -/
def slot9 : DKdraftable := ⟨10, "P", "SP", 100, 0, "ok", "5000", [⟨1, "true"⟩]⟩

/-- Counterexample to C9: the second ledger entry has an unparseable game
date, yet the request completes normally and outputs one record — the
entry sits after the first qualifying entry, so its date is never
parsed.  This refutes the claim that a parse failure on any ledger
entry aborts the whole request. -/
theorem malformed_timestamp_cex :
    parseDigits "bad-date" = none ∧
    (pitchersPass env9 st0 [slot9]).toOption.map (fun st => st.Data.length) = some 1 := by
  constructor
  · rfl
  · rfl

/-- Witness for C9's amended claim: an SP slot with an unparseable start
time aborts the whole pass. -/
theorem malformed_timestamp_aborts_w :
    (pitchersPass env9 st0 [⟨10, "P", "SP", 100, 0, "ok", "not-a-time", [⟨1, "true"⟩]⟩]).toOption
      = none := by
  obtain ⟨e, he⟩ :=
    (malformed_timestamp_aborts env9 ⟨10, "P", "SP", 100, 0, "ok", "not-a-time", [⟨1, "true"⟩]⟩
      [] [] st0 (by decide)).1 rfl
  rw [List.nil_append] at he
  rw [he]
  rfl

theorem pitcherGate_append (st : PitcherState) (fp5 : Pitcher)
    (h1 : implContains st.FinalPitcherKeys fp5.Draftable_uid = false)
    (h2 : fp5.ProbablePitcher = true) :
    pitcherGate st fp5 =
      ⟨st.FinalPitcherKeys ++ [fp5.Draftable_uid], st.Data ++ [fp5], fp5⟩ := by
  unfold pitcherGate
  rw [if_neg (by simp [h1]), if_neg (by simp [h2])]

/-- C8: a slot whose provider id has no crosswalk mapping is tolerated:
the canonical id resolves to the zero sentinel 0, the downstream pitcher
lookup (whose key "0" is likewise absent) yields the zero-valued record
with an empty ledger, the slot still assembles a record whose matchup
and odds fields all keep their zero/empty defaults, no fault is raised
(the step returns normally, and the record is appended when it passes
the gate), and the pass continues with the remaining slots from the
updated state. -/
theorem unresolved_id_tolerated (env : PitcherEnv) (st : PitcherState)
    (s : DKdraftable) (t : Int)
    (hsp : (strContains s.Position "SP" || strContains s.Position "RP") = true)
    (hkey : env.Keys.find? (fun p => p.1 == toString s.PlayerDkId) = none)
    (hpit : env.pitchers.find? (fun p => p.1 == "0") = none)
    (hparse : env.parseTime s.StartTime = some t) :
    pitcherStep env st s =
      .ok (pitcherGate st (pitcherAssemble s 0 t (pitcherReset st.FinalPitcher s))) ∧
    ((pitcherAssemble s 0 t (pitcherReset st.FinalPitcher s)).Mlb_id = 0 ∧
     (pitcherAssemble s 0 t (pitcherReset st.FinalPitcher s)).Game_gameDate = "" ∧
     (pitcherAssemble s 0 t (pitcherReset st.FinalPitcher s)).ProjPoints = 0 ∧
     (pitcherAssemble s 0 t (pitcherReset st.FinalPitcher s)).Game_opponent = 0 ∧
     (pitcherAssemble s 0 t (pitcherReset st.FinalPitcher s)).Game_opponent_name = "" ∧
     (pitcherAssemble s 0 t (pitcherReset st.FinalPitcher s)).Game_venue = 0 ∧
     (pitcherAssemble s 0 t (pitcherReset st.FinalPitcher s)).Game_team_oddspoints = 0 ∧
     (pitcherAssemble s 0 t (pitcherReset st.FinalPitcher s)).Game_player_oddsfactor = .fin 0 ∧
     (pitcherAssemble s 0 t (pitcherReset st.FinalPitcher s)).Game_opponent_oddspoints = 0 ∧
     (pitcherAssemble s 0 t (pitcherReset st.FinalPitcher s)).Game_s_deviation = 0 ∧
     (pitcherAssemble s 0 t (pitcherReset st.FinalPitcher s)).Games_sim_cume_points = 0) ∧
    ((pitcherAssemble s 0 t (pitcherReset st.FinalPitcher s)).ProbablePitcher = true →
      implContains st.FinalPitcherKeys
        (pitcherAssemble s 0 t (pitcherReset st.FinalPitcher s)).Draftable_uid = false →
      (pitcherGate st (pitcherAssemble s 0 t (pitcherReset st.FinalPitcher s))).Data =
        st.Data ++ [pitcherAssemble s 0 t (pitcherReset st.FinalPitcher s)]) ∧
    (∀ rest : List DKdraftable,
      pitchersPass env st (s :: rest) =
        pitchersPass env (pitcherGate st (pitcherAssemble s 0 t (pitcherReset st.FinalPitcher s)))
          rest) := by
  have hk : goMapGet env.Keys (toString s.PlayerDkId) (⟨0⟩ : ServiceKey) = ⟨0⟩ := by
    unfold goMapGet
    rw [hkey]
  have hp0 : goMapGet env.pitchers "0" (⟨"", []⟩ : MLBpitcher) = ⟨"", []⟩ := by
    unfold goMapGet
    rw [hpit]
  have hstep : pitcherStep env st s =
      .ok (pitcherGate st (pitcherAssemble s 0 t (pitcherReset st.FinalPitcher s))) := by
    unfold pitcherStep
    rw [if_pos hsp, hparse]
    simp only [hk]
    rw [show toString (ServiceKey.mk 0).PlayerID = "0" from rfl]
    simp only [hp0]
    rfl
  refine ⟨hstep, ?_, ?_, ?_⟩
  · refine ⟨?_, ?_, ?_, ?_, ?_, ?_, ?_, ?_, ?_, ?_, ?_⟩ <;>
      (show _ = _
       unfold pitcherAssemble
       split_ifs <;> simp [pitcherReset])
  · intro hprob hfresh
    rw [pitcherGate_append st (pitcherAssemble s 0 t (pitcherReset st.FinalPitcher s))
      hfresh hprob]
  · intro rest
    simp only [pitchersPass]
    rw [hstep]

/-- The environment of the C8 witness: the crosswalk has no row for the
slot's provider id 10, and the pitcher table has no key "0". -/
def env8 : PitcherEnv := ⟨parseDigits, [("99", ⟨1⟩)], [("1", ⟨"B", []⟩)], [], []⟩

/-- The slot of the C8 witness: an SP slot, probable pitcher, provider id
10 unknown to the crosswalk. -/
def slot8 : DKdraftable := ⟨10, "P", "SP", 100, 0, "ok", "5000", [⟨1, "true"⟩]⟩

/-- Witness for C8 at a concrete unresolved slot. -/
theorem unresolved_id_tolerated_w :
    pitcherStep env8 st0 slot8 =
      .ok (pitcherGate st0 (pitcherAssemble slot8 0 5000 (pitcherReset st0.FinalPitcher slot8))) :=
  (unresolved_id_tolerated env8 st0 slot8 5000 (by decide) rfl rfl rfl).1

theorem implContains_iff (l : List String) (x : String) :
    implContains l x = true ↔ x ∈ l := by
  simp [implContains]

/-- Invariant of an NFL pass state: output UIDs are pairwise distinct and
all recorded in the seen-UID list. -/
def nflInv (st : NflState) : Prop :=
  (st.Data.map NflPlayer.Draftable_uid).Nodup ∧
  ∀ u ∈ st.Data.map NflPlayer.Draftable_uid, u ∈ st.FinalNFLPlayerKeys

theorem nflGate_inv (st : NflState) (r : NflPlayer) (h : nflInv st) :
    nflInv (nflGate st r) := by
  obtain ⟨hnd, hsub⟩ := h
  unfold nflGate
  split_ifs with h1 h2
  · exact ⟨hnd, hsub⟩
  · exact ⟨hnd, hsub⟩
  · constructor
    · simp only [List.map_append, List.map_cons, List.map_nil]
      rw [List.nodup_append]
      refine ⟨hnd, List.nodup_singleton _, ?_⟩
      intro a ha hb
      simp only [List.mem_singleton] at hb
      subst hb
      exact h1 ((implContains_iff _ _).mpr (hsub _ ha))
    · intro u hu
      simp only [List.map_append, List.map_cons, List.map_nil, List.mem_append,
        List.mem_singleton] at hu
      cases hu with
      | inl hmem => exact List.mem_append_left _ (hsub u hmem)
      | inr heq => exact List.mem_append_right _ (by simp [heq])

theorem classicPass_inv (K : List (String × ServiceKey)) (S : List (String × NFLplayerSim)) :
    ∀ (slots : List DKdraftable) (st : NflState), nflInv st → nflInv (classicPass K S st slots) := by
  intro slots
  induction slots with
  | nil => intro st h; exact h
  | cons s rest ih =>
    intro st h
    exact ih _ (nflGate_inv st (buildClassic K S s) h)

theorem nflGate_keys_mono (st : NflState) (r : NflPlayer) (u : String)
    (hu : u ∈ st.FinalNFLPlayerKeys) : u ∈ (nflGate st r).FinalNFLPlayerKeys := by
  unfold nflGate
  split_ifs <;> simp [hu]

theorem nflGate_filter_frozen (st : NflState) (r : NflPlayer) (u : String)
    (hu : u ∈ st.FinalNFLPlayerKeys) :
    (nflGate st r).Data.filter (fun x => x.Draftable_uid == u) =
      st.Data.filter (fun x => x.Draftable_uid == u) := by
  unfold nflGate
  split_ifs with h1 h2
  · rfl
  · rfl
  · rw [List.filter_append]
    have hne : (r.Draftable_uid == u) = false := by
      rw [beq_eq_false_iff_ne]
      intro he
      exact h1 ((implContains_iff _ _).mpr (he ▸ hu))
    simp [List.filter, hne]

theorem classicPass_filter_frozen (K : List (String × ServiceKey))
    (S : List (String × NFLplayerSim)) :
    ∀ (slots : List DKdraftable) (st : NflState) (u : String),
      u ∈ st.FinalNFLPlayerKeys →
      (classicPass K S st slots).Data.filter (fun x => x.Draftable_uid == u) =
        st.Data.filter (fun x => x.Draftable_uid == u) := by
  intro slots
  induction slots with
  | nil => intro st u hu; rfl
  | cons s rest ih =>
    intro st u hu
    simp only [classicPass]
    rw [ih _ u (nflGate_keys_mono st _ u hu), nflGate_filter_frozen st _ u hu]

theorem classicPass_append (K : List (String × ServiceKey))
    (S : List (String × NFLplayerSim)) :
    ∀ (xs ys : List DKdraftable) (st : NflState),
      classicPass K S st (xs ++ ys) = classicPass K S (classicPass K S st xs) ys := by
  intro xs
  induction xs with
  | nil => intro ys st; rfl
  | cons x xt ih =>
    intro ys st
    simp only [List.cons_append, classicPass]
    exact ih ys _

/-- C3: the Dedup Gate appends a candidate record exactly when its UID is
not yet in the seen-UID list and its lineup-eligibility flag is true,
recording the UID on append; consequently no two records emitted in one
Classic pass share a `Draftable_uid`, and when two slots share a UID and
the first is eligible and not pre-empted, the output holds exactly one
record with that UID — the one built from the first slot, in input
order. -/
theorem classic_dedup_gate :
    (∀ (st : NflState) (r : NflPlayer),
      (implContains st.FinalNFLPlayerKeys r.Draftable_uid = false → r.Inlineup = true →
        nflGate st r =
          ⟨st.FinalNFLPlayerKeys ++ [r.Draftable_uid], st.Data ++ [r]⟩) ∧
      (implContains st.FinalNFLPlayerKeys r.Draftable_uid = true ∨ r.Inlineup = false →
        nflGate st r = st)) ∧
    (∀ (K : List (String × ServiceKey)) (S : List (String × NFLplayerSim))
        (slots : List DKdraftable),
      ((classicPass K S ⟨[], []⟩ slots).Data.map NflPlayer.Draftable_uid).Nodup) ∧
    (∀ (K : List (String × ServiceKey)) (S : List (String × NFLplayerSim))
        (pre mid post : List DKdraftable) (s1 s2 : DKdraftable),
      (buildClassic K S s1).Draftable_uid = (buildClassic K S s2).Draftable_uid →
      (buildClassic K S s1).Inlineup = true →
      implContains (classicPass K S ⟨[], []⟩ pre).FinalNFLPlayerKeys
        (buildClassic K S s1).Draftable_uid = false →
      (classicPass K S ⟨[], []⟩ (pre ++ s1 :: (mid ++ s2 :: post))).Data.filter
          (fun x => x.Draftable_uid == (buildClassic K S s1).Draftable_uid) =
        [buildClassic K S s1]) := by
  refine ⟨?_, ?_, ?_⟩
  · intro st r
    constructor
    · intro hfresh helig
      unfold nflGate
      rw [if_neg (by simp [hfresh]), if_neg (by simp [helig])]
    · intro h
      unfold nflGate
      cases h with
      | inl hseen => rw [if_pos hseen]
      | inr hinl => split_ifs with h1 <;> simp_all
  · intro K S slots
    exact (classicPass_inv K S slots ⟨[], []⟩ (by constructor <;> simp [nflInv])).1
  · intro K S pre mid post s1 s2 huid helig hfresh
    rw [classicPass_append K S pre (s1 :: (mid ++ s2 :: post)) ⟨[], []⟩]
    simp only [classicPass]
    have hgate : nflGate (classicPass K S ⟨[], []⟩ pre) (buildClassic K S s1) =
        ⟨(classicPass K S ⟨[], []⟩ pre).FinalNFLPlayerKeys ++
            [(buildClassic K S s1).Draftable_uid],
          (classicPass K S ⟨[], []⟩ pre).Data ++ [buildClassic K S s1]⟩ := by
      unfold nflGate
      rw [if_neg (by simp [hfresh]), if_neg (by simp [helig])]
    rw [hgate]
    rw [classicPass_filter_frozen K S (mid ++ s2 :: post) _ _ (by simp)]
    simp only [List.filter_append]
    have hP0 : (classicPass K S ⟨[], []⟩ pre).Data.filter
        (fun x => x.Draftable_uid == (buildClassic K S s1).Draftable_uid) = [] := by
      rw [List.filter_eq_nil_iff]
      intro a ha
      have hinv := classicPass_inv K S pre ⟨[], []⟩ (by constructor <;> simp [nflInv])
      have hmem : a.Draftable_uid ∈ (classicPass K S ⟨[], []⟩ pre).FinalNFLPlayerKeys :=
        hinv.2 _ (List.mem_map_of_mem _ ha)
      intro hbeq
      rw [beq_iff_eq] at hbeq
      rw [hbeq] at hmem
      exact (by simp [hfresh] : ¬ implContains (classicPass K S ⟨[], []⟩ pre).FinalNFLPlayerKeys
        (buildClassic K S s1).Draftable_uid = true) ((implContains_iff _ _).mpr hmem)
    rw [hP0]
    simp

/-- Crosswalk and simulation tables for the C3 witness. -/
def envK3 : List (String × ServiceKey) := [("10", ⟨7⟩)]

/-- Simulation table for the C3 witness. -/
def envS3 : List (String × NFLplayerSim) :=
  [("7", ⟨3, "T", 11, [12], 9, [8], 4, "O", 21, 17, 2, "V"⟩)]

/-- Two identical eligible slots for the C3 witness (same UID). -/
def slot3 : DKdraftable := ⟨10, "N", "RB", 5000, 66, "ok", "900", []⟩

/-- Witness for C3: of two identical eligible slots only the first
produces an output record. -/
theorem classic_dedup_gate_w :
    (classicPass envK3 envS3 ⟨[], []⟩ ([] ++ slot3 :: ([] ++ slot3 :: []))).Data.filter
        (fun x => x.Draftable_uid == (buildClassic envK3 envS3 slot3).Draftable_uid) =
      [buildClassic envK3 envS3 slot3] :=
  classic_dedup_gate.2.2 envK3 envS3 [] [] [] slot3 slot3 rfl (by decide) (by decide)

theorem string_data_app (a b : String) : (a ++ b).data = a.data ++ b.data := by
  cases a
  cases b
  rfl

/-- Suffixing different slot ids onto the athlete-id component of the UID
yields different UIDs, whatever the shared components are. -/
theorem mkUid_slot_ne (dk lk : Int) (pos : String) (sal : Int) :
    mkUid dk lk pos (toString lk ++ "_511") sal ≠
      mkUid dk lk pos (toString lk ++ "_512") sal := by
  intro h
  have h2 := congrArg String.data h
  simp only [mkUid, string_data_app, List.append_assoc] at h2
  have h3 := List.append_cancel_left h2
  have h4 := List.append_cancel_left h3
  have h5 := List.append_cancel_left h4
  have h6 := List.append_cancel_left h5
  have h7 := List.append_cancel_left h6
  have h8 := List.append_cancel_left h7
  have h9 := List.append_cancel_left h8
  have h10 := List.append_cancel_left h9
  simp at h10

/-- C6: in showdown format a captain-slot entry (roster slot 511) and a
flex-slot entry (roster slot 512) for the same canonical athlete — same
provider id, position string and salary — produce two distinct
`Draftable_uid`s, because the slot id is suffixed onto the athlete-id
component of the UID; consequently, when both are eligible, both records
pass the Dedup Gate and appear in the output, the second not being
collapsed. -/
theorem showdown_slot_distinct (K : List (String × ServiceKey))
    (S : List (String × NFLplayerSim)) (s1 s2 : DKdraftable)
    (hdk : s1.PlayerDkId = s2.PlayerDkId) (hpos : s1.Position = s2.Position)
    (hsal : s1.Salary = s2.Salary)
    (h1 : s1.RosterSlotId = 511) (h2 : s2.RosterSlotId = 512)
    (e1 : (buildShowdown K S s1).Inlineup = true)
    (e2 : (buildShowdown K S s2).Inlineup = true) :
    (buildShowdown K S s1).Draftable_uid ≠ (buildShowdown K S s2).Draftable_uid ∧
    (showdownPass K S ⟨[], []⟩ [s1, s2]).Data =
      [buildShowdown K S s1, buildShowdown K S s2] := by
  have huid1 : (buildShowdown K S s1).Draftable_uid =
      mkUid s1.PlayerDkId (goMapGet K (toString s1.PlayerDkId) ⟨0⟩).PlayerID s1.Position
        (toString (goMapGet K (toString s1.PlayerDkId) ⟨0⟩).PlayerID ++ "_511") s1.Salary := by
    simp [buildShowdown, h1]
  have huid2 : (buildShowdown K S s2).Draftable_uid =
      mkUid s2.PlayerDkId (goMapGet K (toString s2.PlayerDkId) ⟨0⟩).PlayerID s2.Position
        (toString (goMapGet K (toString s2.PlayerDkId) ⟨0⟩).PlayerID ++ "_512") s2.Salary := by
    simp [buildShowdown, h2]
  have hne : (buildShowdown K S s1).Draftable_uid ≠ (buildShowdown K S s2).Draftable_uid := by
    rw [huid1, huid2, hdk, hpos, hsal]
    exact mkUid_slot_ne s2.PlayerDkId (goMapGet K (toString s2.PlayerDkId) ⟨0⟩).PlayerID
      s2.Position s2.Salary
  refine ⟨hne, ?_⟩
  simp only [showdownPass]
  have hc1 : implContains ([] : List String) (buildShowdown K S s1).Draftable_uid = false := by
    rfl
  have hg1 : nflGate ⟨[], []⟩ (buildShowdown K S s1) =
      ⟨[(buildShowdown K S s1).Draftable_uid], [buildShowdown K S s1]⟩ := by
    unfold nflGate
    simp [hc1, e1]
  rw [hg1]
  have hc2 : implContains [(buildShowdown K S s1).Draftable_uid]
      (buildShowdown K S s2).Draftable_uid = false := by
    rw [Bool.eq_false_iff]
    intro hmem
    rw [implContains_iff, List.mem_singleton] at hmem
    exact hne hmem.symm
  have hg2 : nflGate ⟨[(buildShowdown K S s1).Draftable_uid], [buildShowdown K S s1]⟩
      (buildShowdown K S s2) =
      ⟨[(buildShowdown K S s1).Draftable_uid, (buildShowdown K S s2).Draftable_uid],
        [buildShowdown K S s1, buildShowdown K S s2]⟩ := by
    unfold nflGate
    simp [hc2, e2]
  rw [hg2]

/-- Captain slot for the C6 witness. -/
def slotCpt : DKdraftable := ⟨10, "N", "QB", 8000, 511, "ok", "900", []⟩

/-- Flex slot for the C6 witness: same athlete, position and salary. -/
def slotFlex : DKdraftable := ⟨10, "N", "QB", 8000, 512, "ok", "900", []⟩

/-- Witness for C6: both showdown slots of the same athlete appear. -/
theorem showdown_slot_distinct_w :
    (showdownPass envK3 envS3 ⟨[], []⟩ [slotCpt, slotFlex]).Data =
      [buildShowdown envK3 envS3 slotCpt, buildShowdown envK3 envS3 slotFlex] :=
  (showdown_slot_distinct envK3 envS3 slotCpt slotFlex rfl rfl rfl rfl rfl
    (by decide) (by decide)).2

end StravaDFS
